import Mathlib

set_option maxHeartbeats 1000000

/-!
Verification development for the `dic` command (src/cmd/main.go): a pipeline
that reads csv records, resolves one column (the lookup key) to an image link
through a cache-aside Google image search, and writes the records back out in
input order.  The Go functions `RecW.get`, `RecW.set`, `RecW.Run`,
`enqueueRecW` and the read loop of `handleSSearch` are embedded below as pure
Lean functions; the external collaborators (the Google search client, the
redis cache, the csv streams) are parameters (`Env`), and the concurrent
schedule of `handleSSearch` is modelled by explicit event timestamps.
-/

namespace Dic

/-- Model of Go `context.Context` as used in main.go: either the background
context or a context derived by `context.WithDeadline`/`WithTimeout`. -/
inductive Ctx where
  | background : Ctx
  | withDeadline : Ctx → Nat → Ctx
deriving DecidableEq

/-- The effective deadline carried by a context (Go semantics: a derived
deadline never exceeds the parent's). -/
def Ctx.deadline : Ctx → Option Nat
  | .background => none
  | .withDeadline p d =>
    match p.deadline with
    | none => some d
    | some pd => some (min pd d)

/-- Duration `time.Second*5` passed to `context.WithTimeout` in `handleSSearch`
(line 220), in seconds. -/
def perTaskTimeout : Nat := 5

/-- Go `context.WithTimeout(parent, dur)` called at absolute time `now`. -/
def ctxWithTimeout (parent : Ctx) (now dur : Nat) : Ctx :=
  Ctx.withDeadline parent (now + dur)

/-- One result descriptor returned by `google.SC.SearchImages`; only the
`Link` field is used by main.go. -/
structure Item where
  link : String
deriving DecidableEq

/-- Outcome of a redis `Get`: a value, the `redis.Nil` "key not set" error,
or any other error. -/
inductive CacheGetResp where
  | hit : String → CacheGetResp
  | missNil : CacheGetResp
  | errOther : String → CacheGetResp
deriving DecidableEq

/-- The external collaborators of a run: whether a redis cache is configured
(`cache != nil`), the cache's responses, and the search client.  `search`
receives the context the Go code passes to `SearchImages`. -/
structure Env where
  cachePresent : Bool
  cacheGet : String → CacheGetResp
  cacheSet : String → String → Option String
  search : Ctx → String → Except String (List Item)

/-- Value of `filepath.Base(os.Args[0])` — the binary is installed as `dic`. -/
def keyPrefix : String := "dic"

/-- Go `makeKey` (main.go line 76). -/
def makeKey (k : String) : String :=
  keyPrefix ++ ":" ++ k

/-- The mutable state of a `RecW` task that the claims talk about: the
configured key column `c` (a Go `int`, possibly negative), the record's
fields, and the per-task error.  The collaborator fields (`gsc`, `cache`,
`opts`) live in `Env`; the `done` channel is modelled by the schedule. -/
structure RecW where
  c : Int
  rec_ : List String
  err : Option String
deriving DecidableEq

/-- Result of `RecW.get`: the returned `(string, bool)` pair plus the stderr
lines produced and the redis calls issued (each tagged with the context
governing it — the redis v7 client calls carry the client's background
context, not the per-task context). -/
structure GetOut where
  val : String
  ok : Bool
  logs : List String
  calls : List (Ctx × String)
deriving DecidableEq

/-- Result of `RecW.set`: stderr lines plus the redis `Set` calls issued. -/
structure SetOut where
  logs : List String
  calls : List (Ctx × String × String)
deriving DecidableEq

/-- Go `RecW.get` (main.go lines 80–96). -/
def RecW.get (env : Env) (k : String) : GetOut :=
  if env.cachePresent = false then
    { val := "", ok := false, logs := [], calls := [] }
  else
    match env.cacheGet (makeKey k) with
    | CacheGetResp.missNil =>
      { val := "", ok := false, logs := [], calls := [(Ctx.background, makeKey k)] }
    | CacheGetResp.errOther e =>
      { val := "", ok := false, logs := ["unable to read from cache: " ++ e],
        calls := [(Ctx.background, makeKey k)] }
    | CacheGetResp.hit v =>
      { val := v, ok := true, logs := [], calls := [(Ctx.background, makeKey k)] }

/-- Go `RecW.set` (main.go lines 98–107). -/
def RecW.set (env : Env) (k v : String) : SetOut :=
  if env.cachePresent = false then
    { logs := [], calls := [] }
  else
    match env.cacheSet (makeKey k) v with
    | some e =>
      { logs := ["unable to set cache value: " ++ e], calls := [(Ctx.background, makeKey k, v)] }
    | none =>
      { logs := [], calls := [(Ctx.background, makeKey k, v)] }

/-- The message of `fmt.Errorf("tried to access column %d out of %d", ...)`
(main.go line 112). -/
def colErrMsg (c : Int) (n : Nat) : String :=
  "tried to access column " ++ toString c ++ " out of " ++ toString n

/-- Key extraction `k := r.rec[r.c]` (main.go line 116), for an in-bounds column. -/
def recKey (r : RecW) : String :=
  r.rec_.getD r.c.toNat ""

/-- Everything observable about one execution of `RecW.Run`: the task state
after the run, the stderr lines, and the external calls issued (with the
context each one carries). -/
structure RunOut where
  recw : RecW
  logs : List String
  cacheGetCalls : List (Ctx × String)
  cacheSetCalls : List (Ctx × String × String)
  searchCalls : List (Ctx × String)
deriving DecidableEq

/-- Go `RecW.Run` (main.go lines 109–140).  `none` models the runtime panic of
`r.rec[r.c]` when `c` is negative (the guard on line 111 only checks the
upper bound). -/
def RecW.Run (env : Env) (ctx : Ctx) (r : RecW) : Option RunOut :=
  if (r.rec_.length : Int) ≤ r.c then
    some { recw := { r with err := some (colErrMsg r.c r.rec_.length) },
           logs := [], cacheGetCalls := [], cacheSetCalls := [], searchCalls := [] }
  else if r.c < 0 then
    none
  else
    let g := RecW.get env (recKey r)
    if g.ok then
      some { recw := { r with rec_ := r.rec_ ++ [g.val] },
             logs := g.logs, cacheGetCalls := g.calls, cacheSetCalls := [], searchCalls := [] }
    else
      match env.search ctx (recKey r) with
      | Except.error e =>
        some { recw := { r with err := some e },
               logs := g.logs, cacheGetCalls := g.calls, cacheSetCalls := [],
               searchCalls := [(ctx, recKey r)] }
      | Except.ok [] =>
        some { recw := { r with err := some "no results", rec_ := r.rec_ ++ [""] },
               logs := g.logs, cacheGetCalls := g.calls, cacheSetCalls := [],
               searchCalls := [(ctx, recKey r)] }
      | Except.ok (item :: _) =>
        let s := RecW.set env (recKey r) item.link
        some { recw := { r with rec_ := r.rec_ ++ [item.link] },
               logs := g.logs ++ s.logs, cacheGetCalls := g.calls, cacheSetCalls := s.calls,
               searchCalls := [(ctx, recKey r)] }

/-- The `RecW` built by the read loop of `handleSSearch` (main.go lines
207–213): fresh task, no error yet. -/
def mkRecW (c : Int) (rec : List String) : RecW :=
  { c := c, rec_ := rec, err := none }

/-- The goroutine launched for one task (main.go lines 218–224): a fresh
`context.WithTimeout(context.Background(), 5s)` at launch time, then
`rw.Run(_ctx)`. -/
def launchTask (env : Env) (launchTime : Nat) (r : RecW) : Option RunOut :=
  RecW.Run env (ctxWithTimeout Ctx.background launchTime perTaskTimeout) r

/-- The read loop of `handleSSearch` applied to the whole input: one task per
record, in input order; `lt i` is the launch time of the `i`-th task and `i0`
the index of the first record.  Per-record outcomes never feed back into
admission (the loop exits only on EOF, read error, cancellation or a fatal
writer error). -/
def processAll (env : Env) (c : Int) (lt : Nat → Nat) : Nat → List (List String) → List (Option RunOut)
  | _, [] => []
  | i0, rec :: rest =>
    launchTask env (lt i0) (mkRecW c rec) :: processAll env c lt (i0 + 1) rest

/-- What `enqueueRecW` produced by the time it stopped: the records written
to stdout (in order), the stderr lines, and the fatal error reported on
`errc`, when one occurred. -/
structure DrainOut where
  written : List (List String)
  logs : List String
  fatal : Option String
deriving DecidableEq

/-- Go `enqueueRecW` (main.go lines 147–163) applied to the completed tasks in
queue order; `wf rec` is the result of `csv.Writer.Write rec` (`some e` =
write error, which is fatal and stops the writer). -/
def enqueueRecW (wf : List String → Option String) : List RecW → DrainOut
  | [] => { written := [], logs := [], fatal := none }
  | t :: ts =>
    match t.err with
    | some e =>
      let out := enqueueRecW wf ts
      { out with logs := ("unable to obtain link: " ++ e) :: out.logs }
    | none =>
      match wf t.rec_ with
      | some we =>
        { written := [], logs := [], fatal := some ("unable to write record to stdout: " ++ we) }
      | none =>
        let out := enqueueRecW wf ts
        { out with written := t.rec_ :: out.written }

/-- Timestamps of the four per-task events of `handleSSearch` for a run of
`n` tasks: `tx <- rw` (push, line 215), the start of the goroutine (launch,
line 218), the `done` signal at the end of `Run` (complete, line 110), and
the moment `enqueueRecW` is past `recw.Wait()` and commits or skips the task
(emit, lines 150–161). -/
structure Sched (n : Nat) where
  pushT : Nat → Nat
  launchT : Nat → Nat
  completeT : Nat → Nat
  emitT : Nat → Nat

/-- The synchronization the code guarantees, read off main.go: the read loop
pushes sequentially in input order; each task is pushed before its goroutine
is launched; a task completes only after it is launched; the writer waits for
a task's completion before emitting it; and the channel `tx` is FIFO, so the
writer handles tasks in push order.  Nothing relates the completion times of
distinct tasks: they may finish in any order. -/
def Sched.Valid {n : Nat} (s : Sched n) : Prop :=
  (∀ i, i < n → ∀ j, j < n → i < j → s.pushT i < s.pushT j) ∧
  (∀ i, i < n → s.pushT i < s.launchT i) ∧
  (∀ i, i < n → s.launchT i < s.completeT i) ∧
  (∀ i, i < n → s.completeT i < s.emitT i) ∧
  (∀ i, i < n → ∀ j, j < n → s.pushT i < s.pushT j → s.emitT i < s.emitT j)

/-- The record task `i` contributes to stdout: its post-run record if the run
finished without a per-task error, nothing otherwise (`enqueueRecW` skips
errored tasks). -/
def emittedRec (env : Env) (c : Int) {n : Nat} (s : Sched n) (recs : List (List String))
    (i : Nat) : Option (List String) :=
  match launchTask env (s.launchT i) (mkRecW c (recs.getD i [])) with
  | none => none
  | some out =>
    match out.recw.err with
    | some _ => none
    | none => some out.recw.rec_

/-- The output stream of a run: for each task in input order, the emission
time paired with the committed record, errored tasks omitted. -/
def outputStream {n : Nat} (s : Sched n) (em : Nat → Option (List String)) :
    List (Nat × List String) :=
  (List.range n).filterMap (fun i => (em i).map (fun rec => (s.emitT i, rec)))

/-- Go `const maxcc int = 10` (main.go line 62), the capacity of `sem`. -/
def maxcc : Nat := 10

/-- Timestamps of the semaphore and execution events for `n` tasks:
`sem <- struct{}{}` (acquire, line 216), start and end of `rw.Run` inside the
goroutine, and `<-sem` in the goroutine's defer (release, line 219). -/
structure CCSched (n : Nat) where
  acqT : Nat → Nat
  startT : Nat → Nat
  endT : Nat → Nat
  relT : Nat → Nat

/-- Tasks holding a semaphore slot at time `t`. -/
def holdingAt {n : Nat} (s : CCSched n) (t : Nat) : List Nat :=
  (List.range n).filter (fun i => decide (s.acqT i ≤ t ∧ t < s.relT i))

/-- Tasks whose `Run` is executing at time `t`. -/
def executingAt {n : Nat} (s : CCSched n) (t : Nat) : List Nat :=
  (List.range n).filter (fun i => decide (s.startT i ≤ t ∧ t < s.endT i))

/-- What the code and the Go channel semantics guarantee: the slot is
acquired before the goroutine runs and released only after `Run` returns
(lines 216–224), and a buffered channel of capacity `maxcc` never has more
than `maxcc` outstanding sends, so at most `maxcc` slots are held at any
time. -/
def CCSched.Valid {n : Nat} (s : CCSched n) : Prop :=
  (∀ i, i < n → s.acqT i ≤ s.startT i ∧ s.startT i ≤ s.endT i ∧ s.endT i ≤ s.relT i) ∧
  (∀ t, (holdingAt s t).length ≤ maxcc)

/-! Concrete environments, tasks and schedules used by the witnesses and the
counterexample below. -/

/-- Witness environment: no cache configured, every search succeeds with a
single result whose link is derived from the key. -/
def wEnvOk : Env :=
  { cachePresent := false
    cacheGet := fun _ => CacheGetResp.missNil
    cacheSet := fun _ _ => none
    search := fun _ k => Except.ok [⟨"L-" ++ k⟩] }

/-- Witness environment: cache configured and every key is a cache hit. -/
def wEnvHit : Env :=
  { cachePresent := true
    cacheGet := fun _ => CacheGetResp.hit "C"
    cacheSet := fun _ _ => none
    search := fun _ _ => Except.error "never" }

/-- Witness environment: cache configured and every get fails with an
unexpected (non-`redis.Nil`) error. -/
def wEnvErr : Env :=
  { cachePresent := true
    cacheGet := fun _ => CacheGetResp.errOther "E"
    cacheSet := fun _ _ => none
    search := fun _ k => Except.ok [⟨"L-" ++ k⟩] }

/-- Counterexample environment: cache configured, every get misses, every
search succeeds. -/
def cex4Env : Env :=
  { cachePresent := true
    cacheGet := fun _ => CacheGetResp.missNil
    cacheSet := fun _ _ => none
    search := fun _ _ => Except.ok [⟨"L"⟩] }

/-- Counterexample task: key column 0 of the record `["cat"]`. -/
def cex4Rec : RecW := { c := 0, rec_ := ["cat"], err := none }

/-- Outcome of running the task of `cex4Rec` under `cex4Env` at launch time 0:
the cache get and set calls carry the background context, the search call
carries the fresh 5-second context. -/
def w4Out : RunOut :=
  { recw := { c := 0, rec_ := ["cat", "L"], err := none }
    logs := []
    cacheGetCalls := [(Ctx.background, "dic:cat")]
    cacheSetCalls := [(Ctx.background, "dic:cat", "L")]
    searchCalls := [(ctxWithTimeout Ctx.background 0 perTaskTimeout, "cat")] }

/-- Outcome of running the task for `["cat"]`, column 0, under `wEnvOk`. -/
def w9Out : RunOut :=
  { recw := { c := 0, rec_ := ["cat", "L-cat"], err := none }
    logs := []
    cacheGetCalls := []
    cacheSetCalls := []
    searchCalls := [(Ctx.background, "cat")] }

/-- Witness errored task for the writer. -/
def w8t : RecW := { c := 0, rec_ := ["x"], err := some "E" }

/-- Witness remaining queue for the writer: one successful task. -/
def w8ts : List RecW := [{ c := 0, rec_ := ["y"], err := none }]

/-- Witness output collaborator: every write succeeds. -/
def w8wf : List String → Option String := fun _ => none

/-- Witness schedule for three tasks: pushes in input order, completions in
reverse order (task 2 finishes first), FIFO emission after completion. -/
def w1Sched : Sched 3 :=
  { pushT := fun i => i
    launchT := fun i => 10 + i
    completeT := fun i => 30 - i
    emitT := fun i => 40 + i }

/-- Witness input for the ordering run. -/
def w1Recs : List (List String) := [["cat"], ["dog"], ["bird"]]

/-- Witness semaphore schedule for three tasks. -/
def w5Sched : CCSched 3 :=
  { acqT := fun i => i
    startT := fun i => i + 1
    endT := fun i => i + 2
    relT := fun i => i + 3 }

/-! Helper lemmas shared by the claim theorems. -/

lemma set_calls_eq (env : Env) (k v : String) :
    (RecW.set env k v).calls =
      if env.cachePresent = true then [(Ctx.background, makeKey k, v)] else [] := by
  cases hp : env.cachePresent
  · simp [RecW.set, hp]
  · cases hc : env.cacheSet (makeKey k) v <;> simp [RecW.set, hp, hc]

lemma set_logs_some (env : Env) (k v e : String) (hp : env.cachePresent = true)
    (hs : env.cacheSet (makeKey k) v = some e) :
    (RecW.set env k v).logs = ["unable to set cache value: " ++ e] := by
  simp [RecW.set, hp, hs]

lemma run_cache_hit_eq (env : Env) (ctx : Ctx) (r : RecW) (v : String)
    (h0 : 0 ≤ r.c) (h1 : r.c < (r.rec_.length : Int))
    (hp : env.cachePresent = true)
    (hv : env.cacheGet (makeKey (recKey r)) = CacheGetResp.hit v) :
    RecW.Run env ctx r =
      some { recw := { r with rec_ := r.rec_ ++ [v] }, logs := [],
             cacheGetCalls := [(Ctx.background, makeKey (recKey r))],
             cacheSetCalls := [], searchCalls := [] } := by
  have hg : RecW.get env (recKey r) =
      { val := v, ok := true, logs := [],
        calls := [(Ctx.background, makeKey (recKey r))] } := by
    simp [RecW.get, hp, hv]
  simp only [RecW.Run, hg]
  rw [if_neg (not_le.mpr h1), if_neg (not_lt.mpr h0)]
  simp

lemma get_calls_background (env : Env) (k : String) :
    ∀ p ∈ (RecW.get env k).calls, p.1 = Ctx.background := by
  cases hp : env.cachePresent
  · simp [RecW.get, hp]
  · cases hc : env.cacheGet (makeKey k) <;> simp [RecW.get, hp, hc]

lemma set_calls_background (env : Env) (k v : String) :
    ∀ p ∈ (RecW.set env k v).calls, p.1 = Ctx.background := by
  cases hp : env.cachePresent
  · simp [RecW.set, hp]
  · cases hc : env.cacheSet (makeKey k) v <;> simp [RecW.set, hp, hc]

lemma run_calls_ctx (env : Env) (ctx : Ctx) (r : RecW) (out : RunOut)
    (h : RecW.Run env ctx r = some out) :
    (∀ p ∈ out.searchCalls, p.1 = ctx) ∧
    (∀ p ∈ out.cacheGetCalls, p.1 = Ctx.background) ∧
    (∀ p ∈ out.cacheSetCalls, p.1 = Ctx.background) := by
  simp only [RecW.Run] at h
  split at h
  · injection h with h
    subst h
    simp
  · split at h
    · exact absurd h (by simp)
    · split at h
      · injection h with h
        subst h
        refine ⟨by simp, ?_, by simp⟩
        exact get_calls_background env (recKey r)
      · split at h
        · injection h with h
          subst h
          refine ⟨by simp, get_calls_background env (recKey r), by simp⟩
        · injection h with h
          subst h
          refine ⟨by simp, get_calls_background env (recKey r), by simp⟩
        · injection h with h
          subst h
          refine ⟨by simp, get_calls_background env (recKey r), ?_⟩
          exact set_calls_background env (recKey r) _

lemma processAll_get (env : Env) (c : Int) (lt : Nat → Nat) :
    ∀ (recs : List (List String)) (i0 j : Nat),
      (processAll env c lt i0 recs).length = recs.length ∧
      (processAll env c lt i0 recs)[j]? =
        (recs[j]?).map (fun rec => launchTask env (lt (i0 + j)) (mkRecW c rec)) := by
  intro recs
  induction recs with
  | nil => intro i0 j; simp [processAll]
  | cons rec rest ih =>
    intro i0 j
    refine ⟨by simp [processAll, (ih (i0 + 1) 0).1], ?_⟩
    cases j with
    | zero => simp [processAll]
    | succ j =>
      have h2 := (ih (i0 + 1) j).2
      rw [show i0 + (j + 1) = (i0 + 1) + j from by omega]
      simpa [processAll] using h2

lemma written_from_ok_tasks (wf : List String → Option String) :
    ∀ (ts : List RecW) (rec : List String), rec ∈ (enqueueRecW wf ts).written →
      ∃ u, u ∈ ts ∧ u.err = none ∧ u.rec_ = rec := by
  intro ts
  induction ts with
  | nil => intro rec h; simp [enqueueRecW] at h
  | cons t ts ih =>
    intro rec h
    cases ht : t.err with
    | some e =>
      simp only [enqueueRecW, ht] at h
      obtain ⟨u, hu, hue, hur⟩ := ih rec h
      exact ⟨u, List.mem_cons_of_mem t hu, hue, hur⟩
    | none =>
      simp only [enqueueRecW, ht] at h
      cases hw : wf t.rec_ with
      | some we => rw [hw] at h; simp at h
      | none =>
        rw [hw] at h
        simp only [List.mem_cons] at h
        cases h with
        | inl h => exact ⟨t, List.mem_cons_self t ts, ht, h.symm⟩
        | inr h =>
          obtain ⟨u, hu, hue, hur⟩ := ih rec h
          exact ⟨u, List.mem_cons_of_mem t hu, hue, hur⟩

lemma pairwise_filterMap_of {α β : Type} (f : α → Option β) {R : β → β → Prop}
    {Q : α → α → Prop}
    (h : ∀ a b, Q a b → ∀ x, f a = some x → ∀ y, f b = some y → R x y) :
    ∀ {l : List α}, l.Pairwise Q → (l.filterMap f).Pairwise R := by
  intro l hl
  induction hl with
  | nil => simp
  | @cons a l' ha _ ih =>
    cases hfa : f a with
    | none => rw [List.filterMap_cons_none hfa]; exact ih
    | some x =>
      rw [List.filterMap_cons_some hfa]
      refine List.Pairwise.cons ?_ ih
      intro y hy
      obtain ⟨b, hb, hfb⟩ := List.mem_filterMap.mp hy
      exact h a b (ha b hb) x hfa y hfb

lemma pairwise_range_lt_bounds (n : Nat) :
    (List.range n).Pairwise (fun i j => i < j ∧ j < n) :=
  (List.pairwise_lt_range n).imp_of_mem
    (fun _ hb hab => ⟨hab, List.mem_range.mp hb⟩)

/-! The claim theorems. -/

/-- Claim C1: for every input sequence of records, the records committed to
the output stream appear in exactly the order they were read from the input,
regardless of the order in which the per-record tasks complete.  For every
valid schedule (push before launch, launch before completion, the writer
waiting for completion before emitting, FIFO hand-off — with the completion
times of distinct tasks unconstrained), the output stream listed in input
order has strictly increasing commit times, and its records are exactly the
successfully completed records in input order. -/
theorem output_in_input_order {n : Nat} (env : Env) (c : Int)
    (recs : List (List String)) (s : Sched n) (hv : s.Valid) :
    (outputStream s (emittedRec env c s recs)).Pairwise (fun a b => a.1 < b.1) ∧
    (outputStream s (emittedRec env c s recs)).map Prod.snd =
      (List.range n).filterMap (emittedRec env c s recs) := by
  constructor
  · apply pairwise_filterMap_of _ (Q := fun i j => i < j ∧ j < n) ?_
      (pairwise_range_lt_bounds n)
    intro i j hij x hx y hy
    obtain ⟨hlt, hjn⟩ := hij
    have hin : i < n := lt_trans hlt hjn
    have hemit : s.emitT i < s.emitT j :=
      hv.2.2.2.2 i hin j hjn (hv.1 i hin j hjn hlt)
    cases hei : emittedRec env c s recs i with
    | none => rw [hei] at hx; exact absurd hx (by simp)
    | some reci =>
      cases hej : emittedRec env c s recs j with
      | none => rw [hej] at hy; exact absurd hy (by simp)
      | some recj =>
        rw [hei] at hx
        rw [hej] at hy
        injection hx with hx
        injection hy with hy
        subst hx
        subst hy
        exact hemit
  · simp only [outputStream, List.map_filterMap]
    have hfun : (fun i =>
        ((emittedRec env c s recs i).map (fun rec => (s.emitT i, rec))).map Prod.snd) =
        fun i => emittedRec env c s recs i := by
      funext i
      cases emittedRec env c s recs i <;> rfl
    rw [hfun]

/-- Witness for C1: a concrete three-task run in which the tasks complete in
reverse order yet the output stream is in input order. -/
theorem output_in_input_order_witness :
    Sched.Valid w1Sched ∧
    ((outputStream w1Sched (emittedRec wEnvOk 0 w1Sched w1Recs)).Pairwise
        (fun a b => a.1 < b.1) ∧
      (outputStream w1Sched (emittedRec wEnvOk 0 w1Sched w1Recs)).map Prod.snd =
        (List.range 3).filterMap (emittedRec wEnvOk 0 w1Sched w1Recs)) :=
  ⟨⟨by decide, by decide, by decide, by decide, by decide⟩,
   output_in_input_order wEnvOk 0 w1Recs w1Sched
     ⟨by decide, by decide, by decide, by decide, by decide⟩⟩

/-- Claim C2: on a cache miss the task's outcome follows exactly the lookup
client's response — a client error is stored as the task's error with the
record untouched; zero results store a no-results error and append one empty
field; otherwise the first result's link is appended as the sole new field
and written back to the cache when one is configured, a cache-write failure
being only logged. -/
theorem cache_miss_follows_client (env : Env) (ctx : Ctx) (r : RecW)
    (h0 : 0 ≤ r.c) (h1 : r.c < (r.rec_.length : Int))
    (hmiss : (RecW.get env (recKey r)).ok = false) :
    ∃ out, RecW.Run env ctx r = some out ∧
      out.searchCalls = [(ctx, recKey r)] ∧
      (∀ e, env.search ctx (recKey r) = Except.error e →
        out.recw.err = some e ∧ out.recw.rec_ = r.rec_ ∧ out.cacheSetCalls = []) ∧
      (env.search ctx (recKey r) = Except.ok [] →
        out.recw.err = some "no results" ∧ out.recw.rec_ = r.rec_ ++ [""] ∧
        out.cacheSetCalls = []) ∧
      (∀ (item : Item) (rest : List Item),
        env.search ctx (recKey r) = Except.ok (item :: rest) →
        out.recw.err = r.err ∧ out.recw.rec_ = r.rec_ ++ [item.link] ∧
        out.cacheSetCalls =
          (if env.cachePresent = true
           then [(Ctx.background, makeKey (recKey r), item.link)] else []) ∧
        (env.cachePresent = true →
          ∀ e, env.cacheSet (makeKey (recKey r)) item.link = some e →
          ("unable to set cache value: " ++ e) ∈ out.logs)) := by
  have hnle := not_le.mpr h1
  have hnlt := not_lt.mpr h0
  cases hs : env.search ctx (recKey r) with
  | error e =>
    have hrun : RecW.Run env ctx r =
        some { recw := { r with err := some e }, logs := (RecW.get env (recKey r)).logs,
               cacheGetCalls := (RecW.get env (recKey r)).calls, cacheSetCalls := [],
               searchCalls := [(ctx, recKey r)] } := by
      simp only [RecW.Run, hmiss, hs]
      rw [if_neg hnle, if_neg hnlt]
      simp
    refine ⟨_, hrun, rfl, ?_, ?_, ?_⟩
    · intro e' he'
      injection he' with he'
      subst he'
      exact ⟨rfl, rfl, rfl⟩
    · intro he'
      exact absurd he' (by simp)
    · intro item rest he'
      exact absurd he' (by simp)
  | ok items =>
    cases items with
    | nil =>
      have hrun : RecW.Run env ctx r =
          some { recw := { r with err := some "no results", rec_ := r.rec_ ++ [""] },
                 logs := (RecW.get env (recKey r)).logs,
                 cacheGetCalls := (RecW.get env (recKey r)).calls, cacheSetCalls := [],
                 searchCalls := [(ctx, recKey r)] } := by
        simp only [RecW.Run, hmiss, hs]
        rw [if_neg hnle, if_neg hnlt]
        simp
      refine ⟨_, hrun, rfl, ?_, ?_, ?_⟩
      · intro e' he'
        exact absurd he' (by simp)
      · intro _
        exact ⟨rfl, rfl, rfl⟩
      · intro item rest he'
        exact absurd he' (by simp)
    | cons item rest =>
      have hrun : RecW.Run env ctx r =
          some { recw := { r with rec_ := r.rec_ ++ [item.link] },
                 logs := (RecW.get env (recKey r)).logs ++
                   (RecW.set env (recKey r) item.link).logs,
                 cacheGetCalls := (RecW.get env (recKey r)).calls,
                 cacheSetCalls := (RecW.set env (recKey r) item.link).calls,
                 searchCalls := [(ctx, recKey r)] } := by
        simp only [RecW.Run, hmiss, hs]
        rw [if_neg hnle, if_neg hnlt]
        simp
      refine ⟨_, hrun, rfl, ?_, ?_, ?_⟩
      · intro e' he'
        exact absurd he' (by simp)
      · intro he'
        exact absurd he' (by simp)
      · intro item' rest' he'
        injection he' with he'
        injection he' with he1 he2
        subst he1
        subst he2
        refine ⟨rfl, rfl, set_calls_eq env (recKey r) item.link, ?_⟩
        intro hp e hset
        rw [List.mem_append, set_logs_some env (recKey r) item.link e hp hset]
        exact Or.inr (by simp)

/-- Witness for C2: a concrete cache-miss run (no cache configured) whose
search succeeds. -/
theorem cache_miss_follows_client_witness :
    ((RecW.get wEnvOk (recKey (mkRecW 0 ["cat"]))).ok = false) ∧
    (∃ out, RecW.Run wEnvOk Ctx.background (mkRecW 0 ["cat"]) = some out ∧
      out.searchCalls = [(Ctx.background, recKey (mkRecW 0 ["cat"]))] ∧
      (∀ e, wEnvOk.search Ctx.background (recKey (mkRecW 0 ["cat"])) = Except.error e →
        out.recw.err = some e ∧ out.recw.rec_ = (mkRecW 0 ["cat"]).rec_ ∧
        out.cacheSetCalls = []) ∧
      (wEnvOk.search Ctx.background (recKey (mkRecW 0 ["cat"])) = Except.ok [] →
        out.recw.err = some "no results" ∧
        out.recw.rec_ = (mkRecW 0 ["cat"]).rec_ ++ [""] ∧ out.cacheSetCalls = []) ∧
      (∀ (item : Item) (rest : List Item),
        wEnvOk.search Ctx.background (recKey (mkRecW 0 ["cat"])) =
          Except.ok (item :: rest) →
        out.recw.err = (mkRecW 0 ["cat"]).err ∧
        out.recw.rec_ = (mkRecW 0 ["cat"]).rec_ ++ [item.link] ∧
        out.cacheSetCalls =
          (if wEnvOk.cachePresent = true
           then [(Ctx.background, makeKey (recKey (mkRecW 0 ["cat"])), item.link)]
           else []) ∧
        (wEnvOk.cachePresent = true →
          ∀ e, wEnvOk.cacheSet (makeKey (recKey (mkRecW 0 ["cat"]))) item.link = some e →
          ("unable to set cache value: " ++ e) ∈ out.logs))) :=
  ⟨by decide,
   cache_miss_follows_client wEnvOk Ctx.background (mkRecW 0 ["cat"])
     (by decide) (by decide) (by decide)⟩

/-- Claim C3: when the configured cache holds a value for the task's key, the
run appends the cached value and returns without invoking the lookup client;
conversely the lookup client is reached only when the cache is absent,
reports the key missing, or errors. -/
theorem cache_hit_short_circuits :
    (∀ (env : Env) (ctx : Ctx) (r : RecW) (v : String),
      0 ≤ r.c → r.c < (r.rec_.length : Int) →
      env.cachePresent = true →
      env.cacheGet (makeKey (recKey r)) = CacheGetResp.hit v →
      RecW.Run env ctx r =
        some { recw := { r with rec_ := r.rec_ ++ [v] }, logs := [],
               cacheGetCalls := [(Ctx.background, makeKey (recKey r))],
               cacheSetCalls := [], searchCalls := [] }) ∧
    (∀ (env : Env) (ctx : Ctx) (r : RecW) (out : RunOut),
      RecW.Run env ctx r = some out → out.searchCalls ≠ [] →
      env.cachePresent = false ∨
      env.cacheGet (makeKey (recKey r)) = CacheGetResp.missNil ∨
      ∃ e, env.cacheGet (makeKey (recKey r)) = CacheGetResp.errOther e) := by
  constructor
  · exact run_cache_hit_eq
  · intro env ctx r out h hne
    by_cases hp : env.cachePresent = false
    · exact Or.inl hp
    have hp' : env.cachePresent = true := by
      cases henv : env.cachePresent
      · exact absurd henv hp
      · rfl
    cases hcg : env.cacheGet (makeKey (recKey r)) with
    | missNil => exact Or.inr (Or.inl rfl)
    | errOther e => exact Or.inr (Or.inr ⟨e, rfl⟩)
    | hit v =>
      exfalso
      rcases le_or_lt (r.rec_.length : Int) r.c with hge | hlt
      · simp only [RecW.Run] at h
        rw [if_pos hge] at h
        injection h with h
        subst h
        exact hne rfl
      · rcases lt_or_le r.c 0 with hneg | hpos
        · simp only [RecW.Run] at h
          rw [if_neg (not_le.mpr hlt), if_pos hneg] at h
          cases h
        · rw [run_cache_hit_eq env ctx r v hpos hlt hp' hcg] at h
          injection h with h
          subst h
          exact hne rfl

/-- Witness for C3: a concrete cache hit appends the cached value with no
search call, and a concrete run that did search had no cache configured. -/
theorem cache_hit_short_circuits_witness :
    (RecW.Run wEnvHit Ctx.background (mkRecW 0 ["cat"]) =
      some { recw := { mkRecW 0 ["cat"] with rec_ := ["cat"] ++ ["C"] }, logs := [],
             cacheGetCalls := [(Ctx.background, makeKey (recKey (mkRecW 0 ["cat"])))],
             cacheSetCalls := [], searchCalls := [] }) ∧
    (wEnvOk.cachePresent = false ∨
      wEnvOk.cacheGet (makeKey (recKey (mkRecW 0 ["cat"]))) = CacheGetResp.missNil ∨
      ∃ e, wEnvOk.cacheGet (makeKey (recKey (mkRecW 0 ["cat"]))) =
        CacheGetResp.errOther e) :=
  ⟨cache_hit_short_circuits.1 wEnvHit Ctx.background (mkRecW 0 ["cat"]) "C"
     (by decide) (by decide) rfl rfl,
   cache_hit_short_circuits.2 wEnvOk Ctx.background (mkRecW 0 ["cat"]) w9Out
     (by decide) (by decide)⟩

/-- Claim C4, counterexample: the claim says the cache get/set calls made
during a task's execution are subject to the per-task 5-second deadline; at
this concrete input the execution performs one cache get call and its
context carries no deadline at all (the redis client calls run under the
client's background context, not the task's `context.WithTimeout` context). -/
theorem cache_calls_escape_deadline :
    (launchTask cex4Env 0 cex4Rec).map (fun o => o.cacheGetCalls.length) = some 1 ∧
    (launchTask cex4Env 0 cex4Rec).map
      (fun o => o.cacheGetCalls.all (fun p => p.1.deadline.isSome)) = some false := by
  constructor
  · decide
  · decide

/-- Claim C4, amended: every task's execution receives a fresh context whose
deadline is 5 seconds from its launch, and the external lookup call is made
under exactly that context; the cache get and set calls are not subject to
the per-task deadline — they run under the background context, which carries
no deadline. -/
theorem task_deadline_scope (env : Env) (launchTime : Nat) (r : RecW) (out : RunOut)
    (h : launchTask env launchTime r = some out) :
    (∀ p ∈ out.searchCalls,
      p.1 = ctxWithTimeout Ctx.background launchTime perTaskTimeout ∧
      p.1.deadline = some (launchTime + perTaskTimeout)) ∧
    (∀ p ∈ out.cacheGetCalls, p.1 = Ctx.background ∧ p.1.deadline = none) ∧
    (∀ p ∈ out.cacheSetCalls, p.1 = Ctx.background ∧ p.1.deadline = none) := by
  obtain ⟨hsc, hgc, hsetc⟩ := run_calls_ctx env _ r out h
  refine ⟨?_, ?_, ?_⟩
  · intro p hp
    have hpc := hsc p hp
    exact ⟨hpc, by rw [hpc]; rfl⟩
  · intro p hp
    have hpc := hgc p hp
    exact ⟨hpc, by rw [hpc]; rfl⟩
  · intro p hp
    have hpc := hsetc p hp
    exact ⟨hpc, by rw [hpc]; rfl⟩

/-- Witness for the amended C4: a concrete execution with one call of each
kind. -/
theorem task_deadline_scope_witness :
    launchTask cex4Env 0 cex4Rec = some w4Out ∧
    ((∀ p ∈ w4Out.searchCalls,
        p.1 = ctxWithTimeout Ctx.background 0 perTaskTimeout ∧
        p.1.deadline = some (0 + perTaskTimeout)) ∧
      (∀ p ∈ w4Out.cacheGetCalls, p.1 = Ctx.background ∧ p.1.deadline = none) ∧
      (∀ p ∈ w4Out.cacheSetCalls, p.1 = Ctx.background ∧ p.1.deadline = none)) :=
  ⟨by decide, task_deadline_scope cex4Env 0 cex4Rec w4Out (by decide)⟩

/-- Claim C5: at every point of the run at most `maxcc = 10` tasks execute
simultaneously — the producer acquires a semaphore slot before launching each
task's goroutine and the slot is released only after the task's `Run`
returns, so the executing tasks at any time are among the slot holders,
which the capacity-10 channel bounds by 10. -/
theorem bounded_concurrency {n : Nat} (s : CCSched n) (hv : s.Valid) (t : Nat) :
    (executingAt s t).length ≤ maxcc := by
  refine le_trans ?_ (hv.2 t)
  simp only [executingAt, holdingAt]
  rw [← List.countP_eq_length_filter, ← List.countP_eq_length_filter]
  apply List.countP_mono_left
  intro i hi hpi
  have hin := List.mem_range.mp hi
  have hb := hv.1 i hin
  simp only [decide_eq_true_eq] at hpi ⊢
  exact ⟨le_trans hb.1 hpi.1, lt_of_lt_of_le hpi.2 hb.2.2⟩

/-- Witness for C5: a concrete three-task semaphore schedule. -/
theorem bounded_concurrency_witness :
    CCSched.Valid w5Sched ∧ (executingAt w5Sched 2).length ≤ maxcc := by
  have hv : CCSched.Valid w5Sched :=
    ⟨by decide, fun t => le_trans (List.length_filter_le _ _) (by decide)⟩
  exact ⟨hv, bounded_concurrency w5Sched hv 2⟩

/-- Claim C6: a cache get that fails with an error other than `redis.Nil` is
logged, returns an empty value and `false`, and leaves the run to proceed to
the external lookup exactly as a cache miss would; the cache error never
reaches the task's error. -/
theorem cache_error_treated_as_miss (env : Env) (ctx : Ctx) (r : RecW) (e : String)
    (h0 : 0 ≤ r.c) (h1 : r.c < (r.rec_.length : Int))
    (hp : env.cachePresent = true)
    (he : env.cacheGet (makeKey (recKey r)) = CacheGetResp.errOther e) :
    RecW.get env (recKey r) =
      { val := "", ok := false, logs := ["unable to read from cache: " ++ e],
        calls := [(Ctx.background, makeKey (recKey r))] } ∧
    ∃ out outM, RecW.Run env ctx r = some out ∧
      RecW.Run { env with cacheGet := fun _ => CacheGetResp.missNil } ctx r = some outM ∧
      out.recw = outM.recw ∧
      out.searchCalls = [(ctx, recKey r)] ∧
      out.cacheSetCalls = outM.cacheSetCalls ∧
      out.logs = ("unable to read from cache: " ++ e) :: outM.logs := by
  have hnle := not_le.mpr h1
  have hnlt := not_lt.mpr h0
  have hg : RecW.get env (recKey r) =
      { val := "", ok := false, logs := ["unable to read from cache: " ++ e],
        calls := [(Ctx.background, makeKey (recKey r))] } := by
    simp [RecW.get, hp, he]
  have hgM : RecW.get { env with cacheGet := fun _ => CacheGetResp.missNil } (recKey r) =
      { val := "", ok := false, logs := [],
        calls := [(Ctx.background, makeKey (recKey r))] } := by
    simp [RecW.get, hp]
  refine ⟨hg, ?_⟩
  have hsM : ({ env with cacheGet := fun _ => CacheGetResp.missNil } : Env).search ctx
      (recKey r) = env.search ctx (recKey r) := rfl
  cases hs : env.search ctx (recKey r) with
  | error e' =>
    refine ⟨{ recw := { r with err := some e' },
              logs := ["unable to read from cache: " ++ e],
              cacheGetCalls := [(Ctx.background, makeKey (recKey r))], cacheSetCalls := [],
              searchCalls := [(ctx, recKey r)] },
            { recw := { r with err := some e' }, logs := [],
              cacheGetCalls := [(Ctx.background, makeKey (recKey r))], cacheSetCalls := [],
              searchCalls := [(ctx, recKey r)] }, ?_, ?_, rfl, rfl, rfl, rfl⟩
    · simp only [RecW.Run, hg, hs]
      rw [if_neg hnle, if_neg hnlt]
      simp
    · simp only [RecW.Run, hgM, hsM, hs]
      rw [if_neg hnle, if_neg hnlt]
      simp
  | ok items =>
    cases items with
    | nil =>
      refine ⟨{ recw := { r with err := some "no results", rec_ := r.rec_ ++ [""] },
                logs := ["unable to read from cache: " ++ e],
                cacheGetCalls := [(Ctx.background, makeKey (recKey r))], cacheSetCalls := [],
                searchCalls := [(ctx, recKey r)] },
              { recw := { r with err := some "no results", rec_ := r.rec_ ++ [""] },
                logs := [],
                cacheGetCalls := [(Ctx.background, makeKey (recKey r))], cacheSetCalls := [],
                searchCalls := [(ctx, recKey r)] }, ?_, ?_, rfl, rfl, rfl, rfl⟩
      · simp only [RecW.Run, hg, hs]
        rw [if_neg hnle, if_neg hnlt]
        simp
      · simp only [RecW.Run, hgM, hsM, hs]
        rw [if_neg hnle, if_neg hnlt]
        simp
    | cons item rest =>
      refine ⟨{ recw := { r with rec_ := r.rec_ ++ [item.link] },
                logs := ("unable to read from cache: " ++ e) ::
                  (RecW.set env (recKey r) item.link).logs,
                cacheGetCalls := [(Ctx.background, makeKey (recKey r))],
                cacheSetCalls := (RecW.set env (recKey r) item.link).calls,
                searchCalls := [(ctx, recKey r)] },
              { recw := { r with rec_ := r.rec_ ++ [item.link] },
                logs := (RecW.set env (recKey r) item.link).logs,
                cacheGetCalls := [(Ctx.background, makeKey (recKey r))],
                cacheSetCalls := (RecW.set env (recKey r) item.link).calls,
                searchCalls := [(ctx, recKey r)] }, ?_, ?_, rfl, rfl, rfl, rfl⟩
      · simp only [RecW.Run, hg, hs]
        rw [if_neg hnle, if_neg hnlt]
        simp
      · simp only [RecW.Run, hgM, hsM, hs]
        rw [if_neg hnle, if_neg hnlt]
        simp
        exact ⟨rfl, rfl⟩

/-- Witness for C6: a concrete run whose cache get errors with `"E"`. -/
theorem cache_error_treated_as_miss_witness :
    (RecW.get wEnvErr (recKey (mkRecW 0 ["cat"])) =
      { val := "", ok := false, logs := ["unable to read from cache: " ++ "E"],
        calls := [(Ctx.background, makeKey (recKey (mkRecW 0 ["cat"])))] }) ∧
    (∃ out outM, RecW.Run wEnvErr Ctx.background (mkRecW 0 ["cat"]) = some out ∧
      RecW.Run { wEnvErr with cacheGet := fun _ => CacheGetResp.missNil } Ctx.background
        (mkRecW 0 ["cat"]) = some outM ∧
      out.recw = outM.recw ∧
      out.searchCalls = [(Ctx.background, recKey (mkRecW 0 ["cat"]))] ∧
      out.cacheSetCalls = outM.cacheSetCalls ∧
      out.logs = ("unable to read from cache: " ++ "E") :: outM.logs) :=
  cache_error_treated_as_miss wEnvErr Ctx.background (mkRecW 0 ["cat"]) "E"
    (by decide) (by decide) rfl rfl

/-- Claim C7: a record with fewer fields than required by the configured key
column gets a per-record error without any cache or lookup call and with its
fields untouched, and this is non-fatal to the pipeline — the read loop gives
every record its own independent task, so every other record is still
admitted and processed. -/
theorem short_record_task_errors (env : Env) (ctx : Ctx) (c : Int) (rec : List String)
    (h : (rec.length : Int) ≤ c) :
    (∃ out, RecW.Run env ctx (mkRecW c rec) = some out ∧
      out.recw.err = some (colErrMsg c rec.length) ∧
      out.recw.rec_ = rec ∧ out.cacheGetCalls = [] ∧ out.searchCalls = [] ∧
      out.cacheSetCalls = []) ∧
    (∀ (lt : Nat → Nat) (recs : List (List String)) (i0 j : Nat),
      (processAll env c lt i0 recs).length = recs.length ∧
      (processAll env c lt i0 recs)[j]? =
        (recs[j]?).map (fun rec2 => launchTask env (lt (i0 + j)) (mkRecW c rec2))) := by
  constructor
  · have hrun : RecW.Run env ctx (mkRecW c rec) =
        some { recw := { c := c, rec_ := rec, err := some (colErrMsg c rec.length) },
               logs := [], cacheGetCalls := [], cacheSetCalls := [], searchCalls := [] } := by
      simp only [RecW.Run, mkRecW]
      rw [if_pos h]
    exact ⟨_, hrun, rfl, rfl, rfl, rfl, rfl⟩
  · intro lt recs i0 j
    exact processAll_get env c lt recs i0 j

/-- Witness for C7: the record `["a"]` with the default key column 2. -/
theorem short_record_task_errors_witness :
    (∃ out, RecW.Run wEnvOk Ctx.background (mkRecW 2 ["a"]) = some out ∧
      out.recw.err = some (colErrMsg 2 ["a"].length) ∧
      out.recw.rec_ = ["a"] ∧ out.cacheGetCalls = [] ∧ out.searchCalls = [] ∧
      out.cacheSetCalls = []) ∧
    (∀ (lt : Nat → Nat) (recs : List (List String)) (i0 j : Nat),
      (processAll wEnvOk 2 lt i0 recs).length = recs.length ∧
      (processAll wEnvOk 2 lt i0 recs)[j]? =
        (recs[j]?).map (fun rec2 => launchTask wEnvOk (lt (i0 + j)) (mkRecW 2 rec2))) :=
  short_record_task_errors wEnvOk Ctx.background 2 ["a"] (by decide)

/-- Claim C8: the writer logs a dequeued task whose error is set and does not
write its record, the rest of the queue is processed unchanged, and every
record it ever writes comes from a task whose error is unset. -/
theorem errored_task_logged_not_written (wf : List String → Option String)
    (t : RecW) (ts : List RecW) (e : String) (ht : t.err = some e) :
    (enqueueRecW wf (t :: ts)).written = (enqueueRecW wf ts).written ∧
    (enqueueRecW wf (t :: ts)).logs =
      ("unable to obtain link: " ++ e) :: (enqueueRecW wf ts).logs ∧
    (enqueueRecW wf (t :: ts)).fatal = (enqueueRecW wf ts).fatal ∧
    (∀ rec, rec ∈ (enqueueRecW wf (t :: ts)).written →
      ∃ u, u ∈ ts ∧ u.err = none ∧ u.rec_ = rec) := by
  have hstep : enqueueRecW wf (t :: ts) =
      { written := (enqueueRecW wf ts).written,
        logs := ("unable to obtain link: " ++ e) :: (enqueueRecW wf ts).logs,
        fatal := (enqueueRecW wf ts).fatal } := by
    simp [enqueueRecW, ht]
  refine ⟨by rw [hstep], by rw [hstep], by rw [hstep], ?_⟩
  intro rec h
  rw [hstep] at h
  exact written_from_ok_tasks wf ts rec h

/-- Witness for C8: an errored task ahead of one successful task. -/
theorem errored_task_logged_not_written_witness :
    (enqueueRecW w8wf (w8t :: w8ts)).written = (enqueueRecW w8wf w8ts).written ∧
    (enqueueRecW w8wf (w8t :: w8ts)).logs =
      ("unable to obtain link: " ++ "E") :: (enqueueRecW w8wf w8ts).logs ∧
    (enqueueRecW w8wf (w8t :: w8ts)).fatal = (enqueueRecW w8wf w8ts).fatal ∧
    (∀ rec, rec ∈ (enqueueRecW w8wf (w8t :: w8ts)).written →
      ∃ u, u ∈ w8ts ∧ u.err = none ∧ u.rec_ = rec) :=
  errored_task_logged_not_written w8wf w8t w8ts "E" (by decide)

/-- Claim C9: every completed execution path of a task preserves the original
fields in their original order and only ever appends, at most one field. -/
theorem run_only_appends (env : Env) (ctx : Ctx) (r : RecW) (out : RunOut)
    (h : RecW.Run env ctx r = some out) :
    ∃ tail, out.recw.rec_ = r.rec_ ++ tail ∧ tail.length ≤ 1 ∧
      out.recw.c = r.c := by
  simp only [RecW.Run] at h
  split at h
  · injection h with h
    subst h
    exact ⟨[], by simp, by simp, rfl⟩
  · split at h
    · exact absurd h (by simp)
    · split at h
      · injection h with h
        subst h
        exact ⟨[(RecW.get env (recKey r)).val], rfl, by simp, rfl⟩
      · split at h
        · injection h with h
          subst h
          exact ⟨[], by simp, by simp, rfl⟩
        · injection h with h
          subst h
          exact ⟨[""], rfl, by simp, rfl⟩
        · injection h with h
          subst h
          exact ⟨[_], rfl, by simp, rfl⟩

/-- Witness for C9: a concrete successful run appends exactly one field. -/
theorem run_only_appends_witness :
    RecW.Run wEnvOk Ctx.background (mkRecW 0 ["cat"]) = some w9Out ∧
    ∃ tail, w9Out.recw.rec_ = (mkRecW 0 ["cat"]).rec_ ++ tail ∧ tail.length ≤ 1 ∧
      w9Out.recw.c = (mkRecW 0 ["cat"]).c :=
  ⟨by decide, run_only_appends wEnvOk Ctx.background (mkRecW 0 ["cat"]) w9Out (by decide)⟩

/-- Claim C10: the malformed-record guard checks only the upper bound of the
column index — whenever the index is at least the number of fields an error
is set with no field touched; for a non-negative in-range index the key field
exists; and non-negativity is a necessary precondition, since a negative
index passes the guard and the unprotected field access panics (modelled as
`none`). -/
theorem guard_checks_upper_bound_only :
    (∀ (env : Env) (ctx : Ctx) (r : RecW), (r.rec_.length : Int) ≤ r.c →
      RecW.Run env ctx r =
        some { recw := { r with err := some (colErrMsg r.c r.rec_.length) },
               logs := [], cacheGetCalls := [], cacheSetCalls := [], searchCalls := [] }) ∧
    (∀ r : RecW, 0 ≤ r.c → r.c < (r.rec_.length : Int) → r.c.toNat < r.rec_.length) ∧
    (∀ (env : Env) (ctx : Ctx) (r : RecW), r.c < 0 →
      ¬ ((r.rec_.length : Int) ≤ r.c) ∧ RecW.Run env ctx r = none) := by
  refine ⟨?_, ?_, ?_⟩
  · intro env ctx r h
    simp only [RecW.Run, if_pos h]
  · intro r h1 h2
    omega
  · intro env ctx r h
    have hg : ¬ ((r.rec_.length : Int) ≤ r.c) := by omega
    exact ⟨hg, by simp only [RecW.Run, if_neg hg, if_pos h]⟩

/-- Witness for C10: the guard fires on column 5 of a one-field record, the
access is in bounds on column 1 of a two-field record, and column `-3`
passes the guard and panics. -/
theorem guard_checks_upper_bound_only_witness :
    RecW.Run wEnvOk Ctx.background (mkRecW 5 ["a"]) =
      some { recw := { mkRecW 5 ["a"] with
               err := some (colErrMsg (mkRecW 5 ["a"]).c (mkRecW 5 ["a"]).rec_.length) },
             logs := [], cacheGetCalls := [], cacheSetCalls := [], searchCalls := [] } ∧
    (mkRecW 1 ["a", "b"]).c.toNat < (mkRecW 1 ["a", "b"]).rec_.length ∧
    (¬ (((mkRecW (-3) ["a"]).rec_.length : Int) ≤ (mkRecW (-3) ["a"]).c) ∧
      RecW.Run wEnvOk Ctx.background (mkRecW (-3) ["a"]) = none) :=
  ⟨guard_checks_upper_bound_only.1 wEnvOk Ctx.background (mkRecW 5 ["a"]) (by decide),
   guard_checks_upper_bound_only.2.1 (mkRecW 1 ["a", "b"]) (by decide) (by decide),
   guard_checks_upper_bound_only.2.2 wEnvOk Ctx.background (mkRecW (-3) ["a"]) (by decide)⟩

end Dic
